import Mathlib

set_option linter.unusedVariables false

namespace Mediasorter

/-! Shallow embedding of the mediasorter core (filename parsing, metadata
resolution, result cache) and proofs about it.  Python strings are modelled
as lists of characters (`PyStr`); Python's `re` module is modelled by
hand-written matchers for the concrete patterns the code uses, or abstracted
as an oracle parameter where only control flow matters. -/

/-- Python strings, modelled as lists of characters. -/
abbrev PyStr := List Char

/-- Auxiliary state machine for `str.split()` with no arguments: `acc` holds
the current word reversed. -/
def pySplitWsAux : PyStr → PyStr → List PyStr
  | [], acc => if acc = [] then [] else [acc.reverse]
  | c :: rest, acc =>
    if c.isWhitespace then
      if acc = [] then pySplitWsAux rest [] else acc.reverse :: pySplitWsAux rest []
    else pySplitWsAux rest (c :: acc)

/-- Python `s.split()` with no arguments: split on whitespace runs, dropping
empty tokens. -/
def pySplitWs (s : PyStr) : List PyStr := pySplitWsAux s []

/-- Python `" ".join(parts)`. -/
def joinSpace (parts : List PyStr) : PyStr := (parts.intersperse [' ']).flatten

/-! ## Result cache (`mediasorter/lib/cache.py`)

`Cache.__construct_unique_key(*args, **kwargs)` inspects the Python values
passed as query arguments.  We model such a value by what the `isinstance`
checks in the source can observe: a string, an int, `None`, or any other
(non-scalar) object. -/

/-- A value passed as a cache query argument. -/
inductive CacheArg
  | pstr (s : String)
  | pint (n : Int)
  | pynone
  | other
deriving DecidableEq, Repr

/-- `models.TvShowMetadata`. -/
structure TvShowMetadata where
  series_title : String
  season_id : Int
  episode_title : String
  episode_id : Int
deriving DecidableEq, Repr

/-- `models.MovieMetadata`. -/
structure MovieMetadata where
  title : String
  year : Int
deriving DecidableEq, Repr

/-- A cached value: `Union[TvShowMetadata, MovieMetadata]`. -/
inductive MediaMetadata
  | tv (m : TvShowMetadata)
  | movie (m : MovieMetadata)
deriving DecidableEq, Repr

/-- The Python `ValueError` raised when unpacking fails. -/
inductive UnpackError
  | valueError
deriving DecidableEq, Repr

/-- The positional-argument loop of `__construct_unique_key`: `None` is
skipped, strings and ints are stringified, anything else makes the whole key
`None` (the loop returns immediately, which is observationally the same as
finishing the scan). -/
def posKeyParts : List CacheArg → Option (List String)
  | [] => some []
  | a :: rest =>
    match a with
    | .pynone => posKeyParts rest
    | .pstr s => (posKeyParts rest).map (fun l => s :: l)
    | .pint n => (posKeyParts rest).map (fun l => toString n :: l)
    | .other => none

/-- The keyword-argument loop of `__construct_unique_key`.  The source reads
`for key, val in kwargs:` — iterating a dict yields its KEYS, so each keyword
NAME is unpacked into the two variables.  That unpack raises `ValueError`
unless the name has exactly two characters, in which case `key` and `val` are
bound to those two one-character strings (both are `str`s and never `None`,
so the subsequent checks pass and the pair contributes `"k:v"`). -/
def kwargsKeyParts : List (String × CacheArg) → Except UnpackError (List String)
  | [] => .ok []
  | (name, _val) :: rest =>
    match name.data with
    | [k, v] =>
      (kwargsKeyParts rest).map
        (fun l => (String.mk [k] ++ ":" ++ String.mk [v]) :: l)
    | _ => .error .valueError

/-- `Cache.__construct_unique_key`.  Returns `ok none` when the call is
uncacheable (Python returns `None`), `ok (some key)` otherwise; the keyword
loop can raise `ValueError`.  The positional loop runs first and a non-scalar
positional argument returns `None` before the keyword loop is reached. -/
def construct_unique_key (args : List CacheArg) (kwargs : List (String × CacheArg)) :
    Except UnpackError (Option String) :=
  match posKeyParts args with
  | none => .ok none
  | some pos =>
    match kwargsKeyParts kwargs with
    | .error e => .error e
    | .ok kw => .ok (some (String.intercalate "," (pos ++ kw)))

/-- In-memory cache state: the optional backing path and the `memory.items`
dict (modelled as an association list; dict update replaces in place or
appends). -/
structure Cache where
  path : Option String
  items : List (String × MediaMetadata)
deriving DecidableEq, Repr

/-- `Cache.is_disabled`. -/
def Cache.is_disabled (c : Cache) : Bool := c.path.isNone

/-- Python dict update `items[key] = value`: replace the binding in place if
the key is present, append otherwise. -/
def updateItems : List (String × MediaMetadata) → String → MediaMetadata →
    List (String × MediaMetadata)
  | [], k, v => [(k, v)]
  | (k', v') :: rest, k, v =>
    if k' = k then (k, v) :: rest else (k', v') :: updateItems rest k v

/-- Python dict `items.get(key)`. -/
def lookupItems : List (String × MediaMetadata) → String → Option MediaMetadata
  | [], _ => none
  | (k', v') :: rest, k => if k' = k then some v' else lookupItems rest k

/-- `Cache.insert`.  Disabled caches return before key construction; a key of
`None` — or the empty string, since `if not unique_key` also treats `""` as
falsy — silently skips the write. -/
def Cache.insert (c : Cache) (args : List CacheArg) (kwargs : List (String × CacheArg))
    (result : MediaMetadata) : Except UnpackError Cache :=
  if c.is_disabled then .ok c
  else
    match construct_unique_key args kwargs with
    | .error e => .error e
    | .ok none => .ok c
    | .ok (some k) =>
      if k = "" then .ok c
      else .ok { c with items := updateItems c.items k result }

/-- `Cache.get`.  Disabled caches return `None` before key construction; an
unusable key (including `""`) returns `None`; otherwise the stored value (or
`None` on a miss) is returned. -/
def Cache.get (c : Cache) (args : List CacheArg) (kwargs : List (String × CacheArg)) :
    Except UnpackError (Option MediaMetadata) :=
  if c.is_disabled then .ok none
  else
    match construct_unique_key args kwargs with
    | .error e => .error e
    | .ok none => .ok none
    | .ok (some k) =>
      if k = "" then .ok none
      else .ok (lookupItems c.items k)

/-- Drop the `None` arguments from a positional argument list. -/
def stripNoneArgs : List CacheArg → List CacheArg
  | [] => []
  | .pynone :: rest => stripNoneArgs rest
  | a :: rest => a :: stripNoneArgs rest

/-- An enabled cache with an empty memory, used for concrete instances. -/
def cacheCex : Cache := { path := some "/tmp/mediasorter.cache", items := [] }

/-- A disabled cache (no backing path configured). -/
def disabledCache : Cache := { path := none, items := [] }

/-- A concrete metadata value, used for concrete instances. -/
def cacheCexVal : MediaMetadata := .movie { title := "Heat", year := 1995 }

/-- A concrete TV metadata value, used for concrete instances. -/
def cacheTvVal : MediaMetadata :=
  .tv { series_title := "MASH", season_id := 5, episode_title := "Out of Sight", episode_id := 3 }

/-! ## Retrying fetcher (`MetadataApi.async_fetch_json`, metadata.py)

One HTTP GET either yields a JSON payload of type `J` or raises
`ClientResponseError` with some HTTP status, modelled as `Except Nat J`.
The fetch oracle is indexed by the global attempt counter so that a run can
be replayed attempt by attempt. -/

/-- `MetadataQueryError` as raised by `async_fetch_json`, wrapping the HTTP
status of the final failed response. -/
inductive FetchError
  | metadataQueryError (status : Nat)
deriving DecidableEq, Repr

/-- `MetadataApi.async_fetch_json`, instrumented with the number of fetch
attempts performed so far (`attempts`); the second component of the result
is the total attempt count.  On a 429/503 with `retry < max_retries` the
source recurses as `self.async_fetch_json(url, retry + 1)` — WITHOUT passing
`max_retries` on, so the recursive call runs with the default ceiling 4;
this is transcribed literally below.  Any other error status raises
`MetadataQueryError` immediately. -/
def async_fetch_json {J : Type} (fetch : Nat → Except Nat J)
    (attempts retry maxRetries : Nat) : Except FetchError J × Nat :=
  match fetch attempts with
  | .ok j => (.ok j, attempts + 1)
  | .error status =>
    if h : (status = 429 ∨ status = 503) ∧ retry < maxRetries then
      async_fetch_json fetch (attempts + 1) (retry + 1) 4
    else (.error (.metadataQueryError status), attempts + 1)
termination_by max maxRetries 4 + 1 - retry
decreasing_by
  have h1 := Nat.le_max_left maxRetries 4
  simp only [Nat.max_self]
  omega

/-! ## Search relaxation (`MetadataApi.try_harder` and
`MetadataApi.clean_search_term`, metadata.py) -/

/-- `re.match('^[Tt]he$', w)`: the word is exactly `"The"` or `"the"`. -/
def isTheWord (w : PyStr) : Bool := w = "The".data ∨ w = "the".data

/-- `MetadataApi.clean_search_term`, specialised to `overrides=None` (its
only caller inside `try_harder` passes no overrides, so the override branch
is dead).  Every non-leading "the"/"The" word is dropped, a leading one is
preserved, the words are rejoined with single spaces, and apostrophes
(`Char.ofNat 39`) are stripped. -/
def clean_search_term (s : PyStr) : PyStr :=
  let parts0 := pySplitWs s
  let parts := if parts0 = [] then [s] else parts0
  let parts2 :=
    match parts with
    | [] => []
    | p0 :: rest =>
      if isTheWord p0 then p0 :: rest.filter (fun w => ¬ isTheWord w)
      else (p0 :: rest).filter (fun w => ¬ isTheWord w)
  (joinSpace parts2).filter (fun c => c ≠ Char.ofNat 39)

/-- Outcome of a `try_harder` run: a validated result, a raised
`MetadataQueryError`, or the marker for the source's real divergence when
`min_len = 0` (never reached for `min_len ≥ 1` with sufficient fuel). -/
inductive TryOutcome (E A : Type)
  | ok (a : A)
  | raise (e : E)
  | outOfFuel
deriving DecidableEq, Repr

/-- `MetadataApi.try_harder`, instrumented with the list of search titles
actually attempted, in order.  `buildUrl` models
`self.url + "/" + self.path.format(title=quote(t))`, `fetch` models
`async_fetch_json` on that URL and `validate` the validation callback with
its extra arguments absorbed; both kinds of failure raise
`MetadataQueryError`s of type `E` and are caught by the same handler, which
keeps the FIRST error in `toBeRaised` and recurses on the word list minus
its last word. -/
def try_harder_aux {E J A : Type} (buildUrl : PyStr → String)
    (fetch : String → Except E J) (validate : J → PyStr → Except E A)
    (defaultErr : E) :
    Nat → PyStr → Option E → Nat → Nat → TryOutcome E A × List PyStr
  | 0, _, _, _, _ => (.outOfFuel, [])
  | fuel + 1, searchTerm, toBeRaised, tryIndex, minLen =>
    let split := pySplitWs searchTerm
    if minLen ≤ split.length then
      let searchTitle := clean_search_term (joinSpace split)
      let url := buildUrl searchTitle
      match (fetch url).bind (fun d => validate d searchTitle) with
      | .ok a => (.ok a, [searchTitle])
      | .error e =>
        let toBeRaised' := match toBeRaised with | none => some e | some e0 => some e0
        let rest := try_harder_aux buildUrl fetch validate defaultErr fuel
          (joinSpace split.dropLast) toBeRaised' (tryIndex + 1) minLen
        (rest.1, searchTitle :: rest.2)
    else
      (.raise (toBeRaised.getD defaultErr), [])

/-- `try_harder` entry point (`to_be_raised=None`, `try_index=1`), with fuel
one more than the initial word count, which suffices whenever
`min_len ≥ 1`. -/
def try_harder {E J A : Type} (buildUrl : PyStr → String)
    (fetch : String → Except E J) (validate : J → PyStr → Except E A)
    (defaultErr : E) (searchTerm : PyStr) (minLen : Nat) :
    TryOutcome E A × List PyStr :=
  try_harder_aux buildUrl fetch validate defaultErr
    ((pySplitWs searchTerm).length + 1) searchTerm none 1 minLen

/-- The combined fetch-plus-validate outcome the source observes for one
word list (one relaxation attempt). -/
def attemptOf {E J A : Type} (buildUrl : PyStr → String)
    (fetch : String → Except E J) (validate : J → PyStr → Except E A)
    (words : List PyStr) : Except E A :=
  (fetch (buildUrl (clean_search_term (joinSpace words)))).bind
    (fun d => validate d (clean_search_term (joinSpace words)))

/-- Whether an `Except` value is an error. -/
def exceptIsError {E A : Type} : Except E A → Bool
  | .error _ => true
  | .ok _ => false

/-! ## Resolver (`MediaSorter.find_tvshow` / `MediaSorter.find_movie`,
sort.py)

One configured provider entry (`config.MetadataProviderApi`). -/

/-- A configured metadata provider API entry. -/
structure MetadataProviderApi where
  name : String
  key : Option String
  url : Option String
  path : Option String
deriving DecidableEq, Repr

/-- An error escaping the resolver: the aggregate `MediaSorterError` raised
after every configured provider failed (carrying every per-provider
`MetadataQueryError` cause, in order), or a `ValueError` escaping the cache
layer (unreachable for the positional-only calls the resolver makes). -/
inductive FindError (E : Type)
  | mediaSorterError (causes : List E)
  | cacheError (u : UnpackError)
deriving DecidableEq, Repr

/-- The provider loop shared, line for line, by the bodies of
`MediaSorter.find_tvshow` and `MediaSorter.find_movie` (the two Python
methods are identical up to the registry consulted and the message prefix).
`query api = none` models `registry.get(api.name)` returning no class (the
provider is skipped silently); `some (ok r)` a validated result; `some
(error e)` a `MetadataQueryError` (appended to `exceptions`).  The third
component of the result lists the names of the providers actually invoked,
in order. -/
def find_query_loop {E : Type} (query : MetadataProviderApi → Option (Except E MediaMetadata))
    (args : List CacheArg) :
    List MetadataProviderApi → Cache → List E → List String →
    Except (FindError E) MediaMetadata × Cache × List String
  | [], cache, excs, invoked => (.error (.mediaSorterError excs), cache, invoked)
  | api :: rest, cache, excs, invoked =>
    match query api with
    | none => find_query_loop query args rest cache excs invoked
    | some (.ok result) =>
      match cache.insert args [] result with
      | .error u => (.error (.cacheError u), cache, invoked ++ [api.name])
      | .ok cache' => (.ok result, cache', invoked ++ [api.name])
    | some (.error e) =>
      find_query_loop query args rest cache (excs ++ [e]) (invoked ++ [api.name])

/-- `MediaSorter.find_tvshow`: answer from the cache on a hit (a cached
value is always truthy), otherwise run the provider loop over the configured
API list in order. -/
def find_tvshow {E : Type} (query : MetadataProviderApi → Option (Except E MediaMetadata))
    (cfg : List MetadataProviderApi) (cache : Cache) (args : List CacheArg) :
    Except (FindError E) MediaMetadata × Cache × List String :=
  match cache.get args [] with
  | .error u => (.error (.cacheError u), cache, [])
  | .ok (some hit) => (.ok hit, cache, [])
  | .ok none => find_query_loop query args cfg cache [] []

/-- `MediaSorter.find_movie`: identical body to `find_tvshow` (the Python
source duplicates the loop, consulting the movie registry instead). -/
def find_movie {E : Type} (query : MetadataProviderApi → Option (Except E MediaMetadata))
    (cfg : List MetadataProviderApi) (cache : Cache) (args : List CacheArg) :
    Except (FindError E) MediaMetadata × Cache × List String :=
  match cache.get args [] with
  | .error u => (.error (.cacheError u), cache, [])
  | .ok (some hit) => (.ok hit, cache, [])
  | .ok none => find_query_loop query args cfg cache [] []

/-- The `MetadataQueryError` cause a provider entry contributes, if any. -/
def queryErrOf {E : Type} (query : MetadataProviderApi → Option (Except E MediaMetadata))
    (api : MetadataProviderApi) : Option E :=
  match query api with
  | some (.error e) => some e
  | _ => none

/-- The trace entry a provider entry contributes when reached: its name if
it is registered for the requested media kind, nothing otherwise. -/
def invokedNameOf {E : Type} (query : MetadataProviderApi → Option (Except E MediaMetadata))
    (api : MetadataProviderApi) : Option String :=
  match query api with
  | none => none
  | some _ => some api.name

/-! ## Filename splitting (`parse.split_basename`) -/

/-- Auxiliary state machine for Python `s.split(sep)` with a
single-character separator; `acc` holds the current piece reversed. -/
def splitOnCharAux (sep : Char) : PyStr → PyStr → List PyStr
  | [], acc => [acc.reverse]
  | c :: rest, acc =>
    if c = sep then acc.reverse :: splitOnCharAux sep rest []
    else splitOnCharAux sep rest (c :: acc)

/-- Python `s.split(sep)` for a single-character separator (keeps empty
pieces; the configured split characters are all single characters). -/
def splitOnChar (sep : Char) (s : PyStr) : List PyStr := splitOnCharAux sep s []

/-- Index of the last occurrence of `c` in `s` (Python `s.rfind(c)`, with
`none` instead of `-1`). -/
def rfindIdx (c : Char) : PyStr → Option Nat
  | [] => none
  | x :: rest =>
    match rfindIdx c rest with
    | some i => some (i + 1)
    | none => if x = c then some 0 else none

/-- `os.path.basename` (POSIX): everything after the last slash. -/
def basenameOf (p : PyStr) : PyStr :=
  match rfindIdx '/' p with
  | some i => p.drop (i + 1)
  | none => p

/-- `os.path.splitext` (POSIX): split at the last dot if it lies after the
last slash, except that a run of leading dots of the final component does
not start an extension. -/
def splitextOf (p : PyStr) : PyStr × PyStr :=
  let sepIndex : Int := match rfindIdx '/' p with | some i => (i : Int) | none => -1
  match rfindIdx '.' p with
  | none => (p, [])
  | some dotIndex =>
    if sepIndex < (dotIndex : Int) then
      let start := (sepIndex + 1).toNat
      if ((p.drop start).take (dotIndex - start)).any (fun c => c ≠ '.') then
        (p.take dotIndex, p.drop dotIndex)
      else (p, [])
    else (p, [])

/-- The name the splitter works on: the basename with its extension
discarded. -/
def filenameOf (src_path : PyStr) : PyStr := (splitextOf (basenameOf src_path)).1

/-- Stable insertion for descending-by-length order: `x` goes after every
element of at least its length. -/
def insertByLenDesc (x : List PyStr) : List (List PyStr) → List (List PyStr)
  | [] => [x]
  | y :: rest =>
    if x.length ≤ y.length then y :: insertByLenDesc x rest else x :: y :: rest

/-- Python's stable `list.sort(key=len, reverse=True)`: the unique stable
descending sort by length (equal lengths keep their original order). -/
def stableSortByLenDesc (l : List (List PyStr)) : List (List PyStr) :=
  l.foldl (fun acc x => insertByLenDesc x acc) []

/-- Deduplication via Python `set(...)`.  CPython's set iteration order is
unspecified; the model keeps the first occurrence of each tuple.  No claim
settled here depends on the resulting order. -/
def dedupSplitsAux : List (List PyStr) → List (List PyStr) → List (List PyStr)
  | [], _ => []
  | x :: rest, seen =>
    if x ∈ seen then dedupSplitsAux rest seen else x :: dedupSplitsAux rest (x :: seen)

/-- Entry point of the set-based deduplication. -/
def dedupSplits (l : List (List PyStr)) : List (List PyStr) := dedupSplitsAux l []

/-- `parse.ParsingError` (messages dropped). -/
inductive ParsingError
  | parsingError
deriving DecidableEq, Repr

/-- `parse.split_basename`: strip the extension from the basename; split on
each configured character, dropping empty tokens; sort the splits longest
first (stable); keep only splits with at least `min_split_length` tokens,
removing blacklisted single-character tokens from each KEPT split (the
length test runs on the split BEFORE blacklist removal); raise
`ParsingError` when nothing survives; deduplicate. -/
def split_basename (src_path : PyStr) (split_characters : List Char)
    (min_split_length : Nat) (invalid_single_characters : List PyStr) :
    Except ParsingError (List (List PyStr)) :=
  let filename := filenameOf src_path
  let splits := split_characters.map
    (fun c => (splitOnChar c filename).filter (fun w => w ≠ []))
  let sorted := stableSortByLenDesc splits
  let result := sorted.filterMap (fun split =>
    if split.length < min_split_length then none
    else some (split.filter (fun part => part ∉ invalid_single_characters)))
  if result = [] then .error .parsingError
  else .ok (dedupSplits result)

/-! ## Year patterns (`parse.YEAR_PATTERNS`)

The four regular expressions of the table, in order, as hand-written
matchers over character lists.  `searchAux` reproduces `re.search`: the
leftmost start position wins; at a fixed start the greedy optional
parentheses are resolved exactly (see each matcher's comment). -/

/-- The four members of `YEAR_PATTERNS`, in table order. -/
inductive YearPat
  | paren
  | spaced
  | trailing
  | bounded
deriving DecidableEq, Repr

/-- The pattern table, in source order. -/
def YEAR_PATTERNS : List YearPat := [.paren, .spaced, .trailing, .bounded]

/-- Parse exactly four ASCII digits, returning their value and the rest. -/
def take4Digits : PyStr → Option (Nat × PyStr)
  | a :: b :: c :: d :: rest =>
    if a.isDigit ∧ b.isDigit ∧ c.isDigit ∧ d.isDigit then
      some ((a.toNat - 48) * 1000 + (b.toNat - 48) * 100 + (c.toNat - 48) * 10
        + (d.toNat - 48), rest)
    else none
  | _ => none

/-- Pattern 1: four digits inside parentheses; the captured group is the
year. -/
def matchParenAt : PyStr → Option Nat
  | '(' :: rest =>
    match take4Digits rest with
    | some (y, ')' :: _) => some y
    | _ => none
  | _ => none

/-- Pattern 2: space, optional opening parenthesis, four digits, closing
parenthesis, space.  When an opening parenthesis is present the
backtracking alternative without it would need a digit at the parenthesis
and necessarily fails, so consuming it greedily is exact. -/
def matchSpacedAt : PyStr → Option Nat
  | ' ' :: rest =>
    let rest2 := match rest with | '(' :: r => r | _ => rest
    match take4Digits rest2 with
    | some (y, ')' :: ' ' :: _) => some y
    | _ => none
  | _ => none

/-- Pattern 3: space, optional opening parenthesis, four digits, optional
closing parenthesis, end of string. -/
def matchTrailingAt : PyStr → Option Nat
  | ' ' :: rest =>
    let rest2 := match rest with | '(' :: r => r | _ => rest
    match take4Digits rest2 with
    | some (y, []) => some y
    | some (y, [')']) => some y
    | _ => none
  | _ => none

/-- Pattern 4: non-digit, optional opening parenthesis, four digits,
optional closing parenthesis, non-digit.  A closing parenthesis right after
the digits always completes the match: either a non-digit follows it, or
the greedy optional group backtracks and the parenthesis itself serves as
the final non-digit. -/
def matchBoundedAt : PyStr → Option Nat
  | [] => none
  | c :: rest =>
    if c.isDigit then none
    else
      let rest2 := match rest with | '(' :: r => r | _ => rest
      match take4Digits rest2 with
      | some (y, ')' :: _) => some y
      | some (y, d :: _) => if d.isDigit then none else some y
      | _ => none

/-- `re.search`: try the match at each start position, leftmost first,
returning the start index and the captured year. -/
def searchAux (f : PyStr → Option Nat) : PyStr → Nat → Option (Nat × Nat)
  | [], i =>
    match f [] with
    | some y => some (i, y)
    | none => none
  | s@(_ :: rest), i =>
    match f s with
    | some y => some (i, y)
    | none => searchAux f rest (i + 1)

/-- `re.search(pat, s)` for a year pattern: `(match start, captured
year)`. -/
def yearSearch : YearPat → PyStr → Option (Nat × Nat)
  | .paren, s => searchAux matchParenAt s 0
  | .spaced, s => searchAux matchSpacedAt s 0
  | .trailing, s => searchAux matchTrailingAt s 0
  | .bounded, s => searchAux matchBoundedAt s 0

/-! ## Movie title parsing (`parse._find_title_and_year`) -/

/-- Python `list.remove(w)`: drop the first occurrence.  The model leaves
the list unchanged when `w` is absent (the source would raise there, which
only happens when two mapping entries with distinct tags match one word). -/
def removeFirstWord : List PyStr → PyStr → List PyStr
  | [], _ => []
  | x :: rest, w => if x = w then rest else x :: removeFirstWord rest w

/-- The metainfo scan of `_find_title_and_year`: for each mapping entry (in
dict order) and each word of the ORIGINAL split, when the word fullmatches
the entry's key pattern and the tag is not yet recorded, record the tag and
excise the word from the cleaned split.  `keyMatch k w` abstracts
`re.fullmatch(k, w)` (for the literal keys used in practice it is string
equality).  Returns `(parsed_metainfo, cleaned_split)`. -/
def computeMetainfo (keyMatch : PyStr → PyStr → Bool)
    (mapping : List (PyStr × PyStr)) (possible_split : List PyStr) :
    List PyStr × List PyStr :=
  mapping.foldl
    (fun st kv =>
      possible_split.foldl
        (fun st2 word =>
          if keyMatch kv.1 word ∧ kv.2 ∉ st2.1 then
            (st2.1 ++ [kv.2], removeFirstWord st2.2 word)
          else st2)
        st)
    ([], possible_split)

/-- The `(split, year, parsed metainfo)` triple `_find_title_and_year`
returns. -/
structure TitleYearResult where
  split : List PyStr
  year : Option Nat
  metainfo : List PyStr
deriving DecidableEq, Repr

/-- The pattern-major double loop of `_find_title_and_year` over (year
pattern, candidate split) pairs: a year match returns immediately with the
words before the match start, the year, and the tags of that candidate;
otherwise the running best-effort candidate is replaced when the new
candidate has strictly more recognized tags or — the `continue` in the
source makes this an else-branch — a strictly longer cleaned token
sequence. -/
def ftyLoop (keyMatch : PyStr → PyStr → Bool) (mapping : List (PyStr × PyStr)) :
    List (YearPat × List PyStr) → TitleYearResult → TitleYearResult
  | [], probable => probable
  | (pat, possible_split) :: rest, probable =>
    let mi := computeMetainfo keyMatch mapping possible_split
    let joined := joinSpace mi.2
    match yearSearch pat joined with
    | some (start, year) =>
      { split := pySplitWs (joined.take start), year := some year, metainfo := mi.1 }
    | none =>
      if probable.metainfo.length < mi.1.length then
        ftyLoop keyMatch mapping rest { split := mi.2, year := none, metainfo := mi.1 }
      else if probable.split.length < mi.2.length then
        ftyLoop keyMatch mapping rest { split := mi.2, year := none, metainfo := mi.1 }
      else ftyLoop keyMatch mapping rest probable

/-- Candidate preparation in `_find_title_and_year`: split the basename
(with the default blacklist, a lone dash), re-sort the splits longest first
and, when more than one split is available, discard the single-word ones. -/
def movieCandidates (src_path : PyStr) (split_characters : List Char)
    (min_split_length : Nat) : Except ParsingError (List (List PyStr)) :=
  match split_basename src_path split_characters min_split_length [['-']] with
  | .error e => .error e
  | .ok splits0 =>
    let splits1 := stableSortByLenDesc splits0
    .ok (if 1 < splits1.length then splits1.filter (fun s => 1 < s.length) else splits1)

/-- `parse._find_title_and_year`: try every year pattern (most specific
first) against every candidate; fall back to the running best-effort
candidate with `year = none`. -/
def find_title_and_year (keyMatch : PyStr → PyStr → Bool)
    (mapping : List (PyStr × PyStr)) (src_path : PyStr)
    (split_characters : List Char) (min_split_length : Nat) :
    Except ParsingError TitleYearResult :=
  match movieCandidates src_path split_characters min_split_length with
  | .error e => .error e
  | .ok cands =>
    .ok (ftyLoop keyMatch mapping
      (YEAR_PATTERNS.flatMap (fun pat => cands.map (fun s => (pat, s))))
      { split := [], year := none, metainfo := [] })

/-- Spec-side best-effort selection, for the amended C6: one scan over the
candidates, replacing the current best whenever the candidate has strictly
more recognized tags or, failing that, a strictly longer tag-stripped token
sequence. -/
def specBestEffortPass (keyMatch : PyStr → PyStr → Bool)
    (mapping : List (PyStr × PyStr)) (cands : List (List PyStr))
    (cur : TitleYearResult) : TitleYearResult :=
  cands.foldl
    (fun cur split =>
      let mi := computeMetainfo keyMatch mapping split
      if cur.metainfo.length < mi.1.length then
        { split := mi.2, year := none, metainfo := mi.1 }
      else if cur.split.length < mi.2.length then
        { split := mi.2, year := none, metainfo := mi.1 }
      else cur)
    cur

/-- Spec-side best-effort result: the scan is repeated once per year
pattern (four times), starting from the empty candidate. -/
def specBestEffort (keyMatch : PyStr → PyStr → Bool)
    (mapping : List (PyStr × PyStr)) (cands : List (List PyStr)) : TitleYearResult :=
  specBestEffortPass keyMatch mapping cands
    (specBestEffortPass keyMatch mapping cands
      (specBestEffortPass keyMatch mapping cands
        (specBestEffortPass keyMatch mapping cands
          { split := [], year := none, metainfo := [] })))

/-- Literal-key fullmatch: for the plain-word mapping keys used in practice,
`re.fullmatch(k, w)` is string equality. -/
def literalKeyMatch (k w : PyStr) : Bool := k = w

/-- A concrete metainfo mapping for the C6 instance. -/
def c6map : List (PyStr × PyStr) := [("hd".data, "HD".data), ("x264".data, "x264".data)]

/-- A concrete movie source path for the C6 instance. -/
def c6src : PyStr := "t1.t2.hd.x264.z u1 u2 u3.mkv".data

/-- The dot-split candidate of `c6src` (5 raw tokens, 2 of them tags). -/
def c6splitA : List PyStr :=
  ["t1".data, "t2".data, "hd".data, "x264".data, "z u1 u2 u3".data]

/-- The space-split candidate of `c6src` (4 raw tokens, no tags). -/
def c6splitB : List PyStr :=
  ["t1.t2.hd.x264.z".data, "u1".data, "u2".data, "u3".data]

/-- A configured tvmaze provider entry, for concrete instances. -/
def tvmazeApi : MetadataProviderApi :=
  { name := "tvmaze", key := none, url := some "https://api.tvmaze.com",
    path := some "singlesearch/shows" }

/-- A configured tmdb provider entry, for concrete instances. -/
def tmdbApi : MetadataProviderApi :=
  { name := "tmdb", key := some "k", url := some "https://api.themoviedb.org/3",
    path := some "search/movie" }

/-- A provider oracle where every configured provider is registered and
fails with a `MetadataQueryError` naming it, for concrete instances. -/
def allFailQuery (api : MetadataProviderApi) : Option (Except String MediaMetadata) :=
  some (.error (api.name ++ " failed"))

/-! ## Suggestion engine (`MediaSorter.suggest*`, sort.py)

The parsing functions and resolvers are injected as oracle parameters: the
claims settled against this model are control-flow properties of the
orchestration (which parse calls run, in which order, and whether any
resolver query happens), independent of the parsers' internals. -/

/-- `config.MediaType`. -/
inductive MediaTypeKind
  | tv
  | movie
  | auto
deriving DecidableEq, Repr

/-- Outcome of `suggest_tv_show`: a `(season dir, filename)` suggestion, a
propagating `ParsingError` (both parse attempts failed), or a propagating
resolver error (`MediaSorterError`/`MetadataQueryError`). -/
inductive TvSuggestOutcome (E : Type)
  | ok (dir file : PyStr)
  | parsing
  | findError (e : E)
deriving DecidableEq, Repr

/-- Outcome of `suggest_movie`: a `(subdir option, filename)` suggestion;
the disqualifier rejection, raised as
`MediaSorterError("This appears to be a TV show: ...")`; a propagating
`ParsingError` from `parse_movie_name`; or a resolver error. -/
inductive MovieSuggestOutcome (E : Type)
  | ok (subdir : Option PyStr) (file : PyStr)
  | appearsTvShow
  | parsing
  | findError (e : E)
deriving DecidableEq, Repr

/-- The failure `suggest`'s movie branch wraps into
`MediaSorterError(f"... can't be parsed into a movie title: ...")` — all
three failure kinds of `suggest_movie` are `MediaSorterError`s or
`ParsingError`s and are caught by that first handler. -/
inductive MovieFailure (E : Type)
  | appearsTvShow
  | parsing
  | findError (e : E)
deriving DecidableEq, Repr

/-- The exception recorded on an `Operation` by `suggest`. -/
inductive OpException (E : Type)
  | cantParseTvShow
  | tvError (e : E)
  | cantParseMovie (inner : MovieFailure E)
deriving DecidableEq, Repr

/-- The filesystem-facing `Operation` record.  `action` and `options` are
passed through untouched by the control flow modelled here and omitted. -/
structure Operation (E : Type) where
  input_path : PyStr
  output_path : Option PyStr
  type : MediaTypeKind
  exception : Option (OpException E)
deriving DecidableEq, Repr

/-- The oracle calls `suggest` performs, in order within each list. -/
structure SuggestTrace where
  parseCalls : List Bool
  tvQueries : List (PyStr × Nat × Nat)
  movieQueries : List (PyStr × Option Nat)
deriving DecidableEq, Repr

/-- `parse.fix_leading_the`: `re.match('[Tt]he\s(.*)', title)` — a leading
"The"/"the" followed by one whitespace character; group 1 is the rest of
the line (a dot does not cross a newline); on a match, return the rest with
", The" appended.  `\s` is modelled by `Char.isWhitespace`. -/
def fix_leading_the (s : PyStr) : PyStr :=
  match s with
  | c1 :: 'h' :: 'e' :: c4 :: rest =>
    if (c1 = 'T' ∨ c1 = 't') ∧ c4.isWhitespace then
      (rest.takeWhile (fun c => c ≠ '\n')) ++ (", The".data)
    else c1 :: 'h' :: 'e' :: c4 :: rest
  | _ => s

/-- Python `str.strip()`: drop leading and trailing whitespace. -/
def pyStrip (s : PyStr) : PyStr :=
  ((s.dropWhile (fun c => c.isWhitespace)).reverse.dropWhile
    (fun c => c.isWhitespace)).reverse

/-- `MediaSorter.suggest_tv_show`, with injected parser and resolver.
`parseSE src force` models `parse_season_and_episode(src, split_chars,
min_len, force)` — which, when it does not raise, always returns a truthy
3-tuple; `findTv` models `find_tvshow`; `formatTv` the two `str.format`
template applications.  Besides the outcome, the force flags of the parse
calls made and the resolver queries made are returned, in order. -/
def suggest_tv_show {E : Type}
    (parseSE : PyStr → Bool → Except ParsingError (PyStr × Nat × Nat))
    (findTv : PyStr → Nat → Nat → Except E TvShowMetadata)
    (suffix_the : Bool)
    (formatTv : TvShowMetadata → PyStr × PyStr)
    (src_path : PyStr) :
    TvSuggestOutcome E × List Bool × List (PyStr × Nat × Nat) :=
  let parsed :=
    match parseSE src_path false with
    | .ok t => (Except.ok t, [false])
    | .error _ =>
      match parseSE src_path true with
      | .ok t => (Except.ok t, [false, true])
      | .error e => (Except.error e, [false, true])
  match parsed with
  | (.error _, calls) => (.parsing, calls, [])
  | (.ok (name, series, episode), calls) =>
    match findTv name series episode with
    | .error e => (.findError e, calls, [(name, series, episode)])
    | .ok result =>
      let result :=
        if suffix_the then
          { result with series_title := String.mk (fix_leading_the result.series_title.data) }
        else result
      let fmt := formatTv result
      (.ok fmt.1 (joinSpace (pySplitWs fmt.2)), calls, [(name, series, episode)])

/-- `MediaSorter.suggest_movie`, with injected parsers and resolver.  The
non-forced `parse_season_and_episode` runs first, purely as a disqualifier:
when it returns (a 3-tuple, always truthy) a
`MediaSorterError("This appears to be a TV show")` is raised BEFORE
`parse_movie_name` and before any resolver query; only a `ParsingError`
lets the movie path continue. -/
def suggest_movie {E : Type}
    (parseSE : PyStr → Bool → Except ParsingError (PyStr × Nat × Nat))
    (parseMovie : PyStr → Except ParsingError (PyStr × Option Nat × List PyStr))
    (findMovieQ : PyStr → Option Nat → Except E MovieMetadata)
    (allow_metadata_tagging subdir : Bool)
    (formatMovie : MovieMetadata → PyStr) (formatMovieDir : MovieMetadata → PyStr)
    (src_path : PyStr) :
    MovieSuggestOutcome E × List Bool × List (PyStr × Option Nat) :=
  match parseSE src_path false with
  | .ok _ => (.appearsTvShow, [false], [])
  | .error _ =>
    match parseMovie src_path with
    | .error _ => (.parsing, [false], [])
    | .ok (movie, year, metainfo) =>
      match findMovieQ movie year with
      | .error e => (.findError e, [false], [(movie, year)])
      | .ok result =>
        let filename := formatMovie result
        let subdirVal := if subdir then some (formatMovieDir result) else none
        let filename :=
          if allow_metadata_tagging ∧ metainfo ≠ [] then
            filename ++ (" - [".data) ++ joinSpace metainfo ++ ("]".data)
          else filename
        (.ok subdirVal (pyStrip filename), [false], [(movie, year)])

/-- Final path assembly of `suggest`: join directory and filename (an empty
or absent directory is falsy and skipped; the absolute-filename corner of
`os.path.join` is not modelled), strip the characters ':' and '#', and
append the original extension. -/
def buildOutputPath (directory : Option PyStr) (filename extension : PyStr) : PyStr :=
  let dst := match directory with
    | some d => if d = [] then filename else d ++ '/' :: filename
    | none => filename
  (dst.filter (fun c => c ≠ ':' ∧ c ≠ '#')) ++ extension

/-- The movie branch of `suggest` (`operation.type = "movie"`), with the
traces already accumulated by the TV branch.  Every failure of
`suggest_movie` is a `MediaSorterError` or `ParsingError` and is wrapped by
the first `except` clause into the "can't be parsed into a movie title"
`MediaSorterError` recorded on the operation. -/
def suggestMovieBranch {E : Type}
    (parseSE : PyStr → Bool → Except ParsingError (PyStr × Nat × Nat))
    (parseMovie : PyStr → Except ParsingError (PyStr × Option Nat × List PyStr))
    (findMovieQ : PyStr → Option Nat → Except E MovieMetadata)
    (allow_metadata_tagging subdir : Bool)
    (formatMovie : MovieMetadata → PyStr) (formatMovieDir : MovieMetadata → PyStr)
    (src_path extension : PyStr) (calls : List Bool) (tvq : List (PyStr × Nat × Nat)) :
    Option (Operation E) × SuggestTrace :=
  match suggest_movie parseSE parseMovie findMovieQ allow_metadata_tagging subdir
      formatMovie formatMovieDir src_path with
  | (.ok subdirVal file, mcalls, mq) =>
    (some { input_path := src_path,
            output_path := some (buildOutputPath subdirVal file extension),
            type := .movie, exception := none },
     ⟨calls ++ mcalls, tvq, mq⟩)
  | (.appearsTvShow, mcalls, mq) =>
    (some { input_path := src_path, output_path := none, type := .movie,
            exception := some (.cantParseMovie .appearsTvShow) },
     ⟨calls ++ mcalls, tvq, mq⟩)
  | (.parsing, mcalls, mq) =>
    (some { input_path := src_path, output_path := none, type := .movie,
            exception := some (.cantParseMovie .parsing) },
     ⟨calls ++ mcalls, tvq, mq⟩)
  | (.findError e, mcalls, mq) =>
    (some { input_path := src_path, output_path := none, type := .movie,
            exception := some (.cantParseMovie (.findError e)) },
     ⟨calls ++ mcalls, tvq, mq⟩)

/-- `MediaSorter.suggest`: the extension gate, then the TV path for media
types auto/tv (a tv-mode parse failure is terminal, an auto-mode one falls
through; resolver errors are always terminal), then the movie path when no
TV filename was produced (`if not filename` — an empty formatted filename
also falls through), then path assembly.  The TV path parses with
`tv.min_split_length` and the movie path's disqualifier with
`movie.min_split_length`, hence the two separate parse oracles `parseSEtv`
and `parseSEmv`. -/
def suggest {E : Type}
    (parseSEtv : PyStr → Bool → Except ParsingError (PyStr × Nat × Nat))
    (findTv : PyStr → Nat → Nat → Except E TvShowMetadata)
    (parseSEmv : PyStr → Bool → Except ParsingError (PyStr × Nat × Nat))
    (parseMovie : PyStr → Except ParsingError (PyStr × Option Nat × List PyStr))
    (findMovieQ : PyStr → Option Nat → Except E MovieMetadata)
    (suffix_the allow_metadata_tagging subdir : Bool)
    (formatTv : TvShowMetadata → PyStr × PyStr)
    (formatMovie : MovieMetadata → PyStr) (formatMovieDir : MovieMetadata → PyStr)
    (valid_extensions : List PyStr)
    (src_path : PyStr) (media_type : MediaTypeKind) :
    Option (Operation E) × SuggestTrace :=
  let extension := (splitextOf src_path).2
  if extension = [] then (none, ⟨[], [], []⟩)
  else if extension ∉ valid_extensions then (none, ⟨[], [], []⟩)
  else
    match (if media_type = .auto ∨ media_type = .tv
        then some (suggest_tv_show parseSEtv findTv suffix_the formatTv src_path)
        else none) with
    | some (.findError e, calls, tvq) =>
      (some { input_path := src_path, output_path := none, type := .tv,
              exception := some (.tvError e) }, ⟨calls, tvq, []⟩)
    | some (.parsing, calls, tvq) =>
      if media_type = .tv then
        (some { input_path := src_path, output_path := none, type := .tv,
                exception := some .cantParseTvShow }, ⟨calls, tvq, []⟩)
      else
        suggestMovieBranch parseSEmv parseMovie findMovieQ allow_metadata_tagging subdir
          formatMovie formatMovieDir src_path extension calls tvq
    | some (.ok dir file, calls, tvq) =>
      if file = [] then
        suggestMovieBranch parseSEmv parseMovie findMovieQ allow_metadata_tagging subdir
          formatMovie formatMovieDir src_path extension calls tvq
      else
        (some { input_path := src_path,
                output_path := some (buildOutputPath (some dir) file extension),
                type := .tv, exception := none }, ⟨calls, tvq, []⟩)
    | none =>
      suggestMovieBranch parseSEmv parseMovie findMovieQ allow_metadata_tagging subdir
        formatMovie formatMovieDir src_path extension [] []

/-- A parser oracle that recognizes every path as a TV show even without
force, for concrete instances. -/
def alwaysTvParse : PyStr → Bool → Except ParsingError (PyStr × Nat × Nat) :=
  fun _ _ => .ok ("show".data, 1, 2)

/-- A parser oracle that recognizes a TV show only under force=True, for
concrete instances. -/
def forcedOnlyTvParse : PyStr → Bool → Except ParsingError (PyStr × Nat × Nat) :=
  fun _ force => if force then .ok ("show".data, 1, 2) else .error .parsingError

/-- A movie-name parser oracle, for concrete instances. -/
def someMovieParse : PyStr → Except ParsingError (PyStr × Option Nat × List PyStr) :=
  fun _ => .ok ("movie".data, some 1999, [])

/-- A TV resolver oracle that always fails, for concrete instances. -/
def noTvResolver : PyStr → Nat → Nat → Except String TvShowMetadata :=
  fun _ _ _ => .error "no tv result"

/-- A movie resolver oracle that always fails, for concrete instances. -/
def noMovieResolver : PyStr → Option Nat → Except String MovieMetadata :=
  fun _ _ => .error "no movie result"

/-- A TV formatting oracle, for concrete instances. -/
def tvFormatOracle : TvShowMetadata → PyStr × PyStr :=
  fun _ => ("Show/Season 01".data, "Show S01E02".data)

/-- A movie formatting oracle, for concrete instances. -/
def movieFormatOracle : MovieMetadata → PyStr :=
  fun _ => "Movie (1999)".data

end Mediasorter

namespace Mediasorter

/-! Basic lemmas about the cache model. -/

theorem lookupItems_updateItems (l : List (String × MediaMetadata)) (k : String)
    (v : MediaMetadata) : lookupItems (updateItems l k v) k = some v := by
  induction l with
  | nil => simp [updateItems, lookupItems]
  | cons hd tl ih =>
    obtain ⟨k', v'⟩ := hd
    by_cases h : k' = k
    · simp [updateItems, lookupItems, h]
    · simp [updateItems, lookupItems, h, ih]

theorem posKeyParts_stripNoneArgs (args : List CacheArg) :
    posKeyParts (stripNoneArgs args) = posKeyParts args := by
  induction args with
  | nil => rfl
  | cons a rest ih => cases a <;> simp [stripNoneArgs, posKeyParts, ih]

theorem construct_unique_key_stripNoneArgs (args : List CacheArg)
    (kwargs : List (String × CacheArg)) :
    construct_unique_key (stripNoneArgs args) kwargs = construct_unique_key args kwargs := by
  simp [construct_unique_key, posKeyParts_stripNoneArgs]

/-- C7 counterexample: for the scalar key `""` (the empty string), `insert`
followed by `get` does NOT return the stored value: `if not unique_key`
treats the empty key string as unusable, so the insert is silently skipped
and the get misses. -/
theorem c7_counterexample :
    Cache.insert cacheCex [CacheArg.pstr ""] [] cacheCexVal = .ok cacheCex ∧
    Cache.get cacheCex [CacheArg.pstr ""] [] = .ok none ∧
    (none : Option MediaMetadata) ≠ some cacheCexVal := by
  refine ⟨rfl, rfl, by decide⟩

/-- C7 (amended): for every scalar key list whose constructed key string is
non-empty, `insert(key, result=v)` followed by `get(key)` returns `v` (no
network call is modelled anywhere in the cache); and for a cache constructed
with no backing path, every `get` misses and every `insert` is a no-op. -/
theorem c7_cache_roundtrip_and_disabled :
    (∀ (c : Cache) (args : List CacheArg) (v : MediaMetadata) (p s : String),
        c.path = some p →
        construct_unique_key args [] = .ok (some s) →
        s ≠ "" →
        ∃ c', Cache.insert c args [] v = .ok c' ∧
          Cache.get c' args [] = .ok (some v)) ∧
    (∀ (c : Cache) (args : List CacheArg) (kwargs : List (String × CacheArg))
        (v : MediaMetadata), c.path = none →
        Cache.get c args kwargs = .ok none ∧ Cache.insert c args kwargs v = .ok c) := by
  constructor
  · intro c args v p s hp hkey hs
    refine ⟨{ c with items := updateItems c.items s v }, ?_, ?_⟩
    · simp [Cache.insert, Cache.is_disabled, hp, hkey, hs]
    · simp [Cache.get, Cache.is_disabled, hp, hkey, hs, lookupItems_updateItems]
  · intro c args kwargs v hp
    constructor <;> simp [Cache.get, Cache.insert, Cache.is_disabled, hp]

/-- C7 witness: a concrete round trip through an enabled cache, and a
concrete miss plus no-op insert on a disabled cache. -/
theorem c7_witness :
    (∃ c', Cache.insert cacheCex [CacheArg.pstr "mash", CacheArg.pstr "5"] [] cacheTvVal
          = .ok c' ∧
        Cache.get c' [CacheArg.pstr "mash", CacheArg.pstr "5"] [] = .ok (some cacheTvVal)) ∧
    Cache.get disabledCache [CacheArg.pstr "mash"] [] = .ok none ∧
    Cache.insert disabledCache [CacheArg.pstr "mash"] [] cacheTvVal = .ok disabledCache := by
  refine ⟨c7_cache_roundtrip_and_disabled.1 cacheCex _ cacheTvVal "/tmp/mediasorter.cache"
      "mash,5" rfl rfl (by decide), ?_, ?_⟩
  · exact (c7_cache_roundtrip_and_disabled.2 disabledCache _ [] cacheTvVal rfl).1
  · exact (c7_cache_roundtrip_and_disabled.2 disabledCache _ [] cacheTvVal rfl).2

/-- C8 (code bug): a keyword query argument makes key construction RAISE.
`for key, val in kwargs:` iterates the dict's keys, and unpacking the name
`"year"` into `key, val` raises `ValueError` — instead of silently skipping
caching as the claim (and the surrounding code's clear intent, building
`"key:val"` pairs) requires. -/
theorem c8_kwargs_value_error :
    construct_unique_key [] [("year", CacheArg.pint 2020)] = .error .valueError ∧
    Cache.get cacheCex [] [("year", CacheArg.pint 2020)] = .error .valueError ∧
    Cache.insert cacheCex [] [("year", CacheArg.pint 2020)] cacheCexVal
      = .error .valueError := by
  refine ⟨rfl, rfl, rfl⟩

/-- C10: key construction drops every `None` positional argument, so two
query calls that differ only by inserted or omitted `None` arguments build
the identical cache key and behave identically on `get` and `insert`
(hence share one cache entry). -/
theorem c10_none_args_share_key
    (a1 a2 : List CacheArg) (kwargs : List (String × CacheArg)) (c : Cache)
    (v : MediaMetadata) (h : stripNoneArgs a1 = stripNoneArgs a2) :
    construct_unique_key a1 kwargs = construct_unique_key a2 kwargs ∧
    Cache.get c a1 kwargs = Cache.get c a2 kwargs ∧
    Cache.insert c a1 kwargs v = Cache.insert c a2 kwargs v := by
  have hk : construct_unique_key a1 kwargs = construct_unique_key a2 kwargs := by
    rw [← construct_unique_key_stripNoneArgs a1, ← construct_unique_key_stripNoneArgs a2, h]
  refine ⟨hk, ?_, ?_⟩ <;> simp [Cache.get, Cache.insert, hk]

/-- C10 witness: a movie lookup with `year=None` versus the title alone share
one cache key and one cache entry. -/
theorem c10_witness :
    construct_unique_key [CacheArg.pstr "heat", CacheArg.pynone] [] =
      construct_unique_key [CacheArg.pstr "heat"] [] ∧
    Cache.get cacheCex [CacheArg.pstr "heat", CacheArg.pynone] [] =
      Cache.get cacheCex [CacheArg.pstr "heat"] [] ∧
    Cache.insert cacheCex [CacheArg.pstr "heat", CacheArg.pynone] [] cacheCexVal =
      Cache.insert cacheCex [CacheArg.pstr "heat"] [] cacheCexVal :=
  c10_none_args_share_key [CacheArg.pstr "heat", CacheArg.pynone]
    [CacheArg.pstr "heat"] [] cacheCex cacheCexVal rfl

/-! Lemmas about whitespace splitting, needed for the relaxation search. -/

theorem pySplitWsAux_wf (s : PyStr) : ∀ acc : PyStr,
    (∀ c ∈ acc, c.isWhitespace = false) →
    ∀ w ∈ pySplitWsAux s acc, w ≠ [] ∧ ∀ c ∈ w, c.isWhitespace = false := by
  induction s with
  | nil =>
    intro acc hacc w hw
    by_cases h : acc = []
    · simp [pySplitWsAux, h] at hw
    · simp [pySplitWsAux, h] at hw
      subst hw
      refine ⟨by simpa using h, fun c hc => hacc c (by simpa using hc)⟩
  | cons c rest ih =>
    intro acc hacc w hw
    by_cases hws : c.isWhitespace = true
    · by_cases h : acc = []
      · simp [pySplitWsAux, hws, h] at hw
        exact ih [] (by simp) w hw
      · simp [pySplitWsAux, hws, h] at hw
        rcases hw with hw | hw
        · subst hw
          refine ⟨by simpa using h, fun c hc => hacc c (by simpa using hc)⟩
        · exact ih [] (by simp) w hw
    · simp [pySplitWsAux, hws] at hw
      refine ih (c :: acc) ?_ w hw
      intro d hd
      rcases List.mem_cons.mp hd with rfl | hd
      · simpa using hws
      · exact hacc d hd

theorem pySplitWs_words_wf (s : PyStr) :
    ∀ w ∈ pySplitWs s, w ≠ [] ∧ ∀ c ∈ w, c.isWhitespace = false :=
  pySplitWsAux_wf s [] (by simp)

theorem pySplitWsAux_cons_nonws (c : Char) (t acc : PyStr)
    (hc : c.isWhitespace = false) :
    pySplitWsAux (c :: t) acc = pySplitWsAux t (c :: acc) := by
  simp [pySplitWsAux, hc]

theorem pySplitWsAux_cons_ws (c : Char) (t acc : PyStr)
    (hc : c.isWhitespace = true) :
    pySplitWsAux (c :: t) acc
      = if acc = [] then pySplitWsAux t [] else acc.reverse :: pySplitWsAux t [] := by
  simp [pySplitWsAux, hc]

theorem pySplitWsAux_append (w : PyStr) : ∀ (rest acc : PyStr),
    (∀ c ∈ w, c.isWhitespace = false) →
    pySplitWsAux (w ++ rest) acc = pySplitWsAux rest (w.reverse ++ acc) := by
  induction w with
  | nil => intro rest acc h; simp
  | cons c w' ih =>
    intro rest acc h
    have hc : c.isWhitespace = false := h c (by simp)
    rw [List.cons_append, pySplitWsAux_cons_nonws c _ _ hc,
      ih rest (c :: acc) (fun d hd => h d (by simp [hd]))]
    simp

theorem joinSpace_singleton (w : PyStr) : joinSpace [w] = w := by
  simp [joinSpace]

theorem joinSpace_cons_cons (w w2 : PyStr) (ws : List PyStr) :
    joinSpace (w :: w2 :: ws) = w ++ ' ' :: joinSpace (w2 :: ws) := by
  simp [joinSpace, List.intersperse_cons_cons]

theorem pySplitWs_joinSpace (l : List PyStr)
    (h1 : ∀ w ∈ l, w ≠ []) (h2 : ∀ w ∈ l, ∀ c ∈ w, c.isWhitespace = false) :
    pySplitWs (joinSpace l) = l := by
  induction l with
  | nil => rfl
  | cons w rest ih =>
    cases rest with
    | nil =>
      rw [joinSpace_singleton]
      have h := pySplitWsAux_append w [] [] (h2 w (by simp))
      simp only [List.append_nil] at h
      unfold pySplitWs
      rw [h]
      have hw : w.reverse ≠ [] := by simpa using h1 w (by simp)
      simp [pySplitWsAux, hw]
    | cons w2 ws =>
      rw [joinSpace_cons_cons]
      unfold pySplitWs
      rw [pySplitWsAux_append w (' ' :: joinSpace (w2 :: ws)) [] (h2 w (by simp))]
      have hsp : (' ').isWhitespace = true := by decide
      rw [pySplitWsAux_cons_ws ' ' _ _ hsp]
      have hw : w.reverse ++ ([] : PyStr) ≠ [] := by simpa using h1 w (by simp)
      rw [if_neg hw]
      rw [show pySplitWsAux (joinSpace (w2 :: ws)) [] = pySplitWs (joinSpace (w2 :: ws)) from rfl]
      rw [ih (fun x hx => h1 x (by simp [hx])) (fun x hx => h2 x (by simp [hx]))]
      simp

theorem pySplitWs_joinSpace_dropLast (s : PyStr) :
    pySplitWs (joinSpace (pySplitWs s).dropLast) = (pySplitWs s).dropLast := by
  apply pySplitWs_joinSpace
  · intro w hw
    exact (pySplitWs_words_wf s w ((List.dropLast_sublist _).subset hw)).1
  · intro w hw
    exact (pySplitWs_words_wf s w ((List.dropLast_sublist _).subset hw)).2

/-! ## C1: retry bound of `async_fetch_json` -/

/-- C1 (code bug): with a fetcher that always returns HTTP 429 and a
configured `max_retries = 2`, `async_fetch_json` performs 5 fetch attempts
and then raises `MetadataQueryError` — not the `maxRetries + 1 = 3` attempts
the claim (and the function's own docstring, "limit the number of retries")
requires: the recursive call `self.async_fetch_json(url, retry + 1)` drops
`max_retries`, resetting the ceiling to the default 4.  Only for the default
`max_retries = 4` (5 attempts) and for `max_retries = 0` (1 attempt) does
the claimed bound hold. -/
theorem c1_retry_ceiling_reset :
    (async_fetch_json (J := Unit) (fun _ => .error 429) 0 0 2).2 = 5 ∧
    (async_fetch_json (J := Unit) (fun _ => .error 429) 0 0 2).1
      = .error (.metadataQueryError 429) ∧
    (5 : Nat) ≠ 2 + 1 ∧
    (async_fetch_json (J := Unit) (fun _ => .error 429) 0 0 4).2 = 5 ∧
    (async_fetch_json (J := Unit) (fun _ => .error 429) 0 0 0).2 = 1 := by
  refine ⟨?_, ?_, by decide, ?_, ?_⟩ <;> simp [async_fetch_json]

/-! ## C4: the relaxation search raises the first validation error -/

theorem try_harder_aux_below_min {E J A : Type} (buildUrl : PyStr → String)
    (fetch : String → Except E J) (validate : J → PyStr → Except E A)
    (defaultErr : E) (fuel : Nat) (s : PyStr) (tbr : Option E) (idx minLen : Nat)
    (h : (pySplitWs s).length < minLen) :
    try_harder_aux buildUrl fetch validate defaultErr (fuel + 1) s tbr idx minLen
      = (.raise (tbr.getD defaultErr), []) := by
  have h' : ¬ (minLen ≤ (pySplitWs s).length) := Nat.not_le.mpr h
  simp [try_harder_aux, h']

theorem try_harder_aux_all_fail {E J A : Type} (buildUrl : PyStr → String)
    (fetch : String → Except E J) (validate : J → PyStr → Except E A)
    (defaultErr : E) (minLen : Nat) (hmin : 1 ≤ minLen) :
    ∀ (fuel : Nat) (s : PyStr) (tbr : Option E) (idx : Nat),
      minLen ≤ (pySplitWs s).length →
      (pySplitWs s).length < fuel →
      (∀ k, minLen ≤ k → k ≤ (pySplitWs s).length →
        exceptIsError (attemptOf buildUrl fetch validate ((pySplitWs s).take k)) = true) →
      ∃ e0, attemptOf buildUrl fetch validate (pySplitWs s) = .error e0 ∧
        (try_harder_aux buildUrl fetch validate defaultErr fuel s tbr idx minLen).1
          = .raise (tbr.getD e0) ∧
        (try_harder_aux buildUrl fetch validate defaultErr fuel s tbr idx minLen).2.length
          = (pySplitWs s).length - minLen + 1 := by
  intro fuel
  induction fuel with
  | zero => intro s tbr idx hle hlt hfail; omega
  | succ fuel ih =>
    intro s tbr idx hle hlt hfail
    have hfirst := hfail (pySplitWs s).length hle le_rfl
    rw [List.take_length] at hfirst
    obtain ⟨e0, he0⟩ : ∃ e0, attemptOf buildUrl fetch validate (pySplitWs s) = .error e0 := by
      cases h : attemptOf buildUrl fetch validate (pySplitWs s) with
      | ok a => rw [h] at hfirst; simp [exceptIsError] at hfirst
      | error e => exact ⟨e, rfl⟩
    refine ⟨e0, he0, ?_⟩
    have he0' : (fetch (buildUrl (clean_search_term (joinSpace (pySplitWs s))))).bind
        (fun d => validate d (clean_search_term (joinSpace (pySplitWs s)))) = .error e0 := he0
    have hstep : try_harder_aux buildUrl fetch validate defaultErr (fuel + 1) s tbr idx minLen
        = ((try_harder_aux buildUrl fetch validate defaultErr fuel
              (joinSpace (pySplitWs s).dropLast) (some (tbr.getD e0)) (idx + 1) minLen).1,
           clean_search_term (joinSpace (pySplitWs s)) ::
            (try_harder_aux buildUrl fetch validate defaultErr fuel
              (joinSpace (pySplitWs s).dropLast) (some (tbr.getD e0)) (idx + 1) minLen).2) := by
      simp only [try_harder_aux, hle, if_true, he0']
      cases tbr <;> rfl
    rw [hstep]
    have hdl : pySplitWs (joinSpace (pySplitWs s).dropLast) = (pySplitWs s).dropLast :=
      pySplitWs_joinSpace_dropLast s
    by_cases hrec : minLen ≤ (pySplitWs s).length - 1
    · have hlen' : (pySplitWs (joinSpace (pySplitWs s).dropLast)).length
          = (pySplitWs s).length - 1 := by
        rw [hdl, List.length_dropLast]
      have hforall : ∀ k, minLen ≤ k →
          k ≤ (pySplitWs (joinSpace (pySplitWs s).dropLast)).length →
          exceptIsError (attemptOf buildUrl fetch validate
            ((pySplitWs (joinSpace (pySplitWs s).dropLast)).take k)) = true := by
        intro k hk1 hk2
        rw [hdl] at hk2 ⊢
        rw [List.length_dropLast] at hk2
        have ht : (pySplitWs s).dropLast.take k = (pySplitWs s).take k := by
          rw [List.dropLast_eq_take, List.take_take]
          congr 1
          omega
        rw [ht]
        exact hfail k hk1 (by omega)
      obtain ⟨e1, he1, h1, h2⟩ := ih (joinSpace (pySplitWs s).dropLast)
        (some (tbr.getD e0)) (idx + 1) (by omega) (by omega) hforall
      refine ⟨by simpa using h1, ?_⟩
      simp only [List.length_cons, h2, hlen']
      omega
    · have hlen : (pySplitWs s).length = minLen := by omega
      cases fuel with
      | zero => omega
      | succ fuel' =>
        rw [try_harder_aux_below_min buildUrl fetch validate defaultErr fuel'
          (joinSpace (pySplitWs s).dropLast) (some (tbr.getD e0)) (idx + 1) minLen
          (by rw [hdl, List.length_dropLast]; omega)]
        refine ⟨rfl, ?_⟩
        simp [hlen]

/-- C4: if every relaxation attempt (dropping one trailing word at a time,
down to the configured minimum word count) fails with a
`MetadataQueryError`, then `try_harder` stops once the remaining word count
drops below the minimum — making exactly `wordCount - minLen + 1`
attempts — and raises exactly the error of the FIRST attempt, not the
last. -/
theorem c4_try_harder_first_error {E J A : Type} (buildUrl : PyStr → String)
    (fetch : String → Except E J) (validate : J → PyStr → Except E A)
    (defaultErr : E) (searchTerm : PyStr) (minLen : Nat) (e0 : E)
    (hmin : 1 ≤ minLen)
    (hlen : minLen ≤ (pySplitWs searchTerm).length)
    (hfail : ∀ k, minLen ≤ k → k ≤ (pySplitWs searchTerm).length →
      exceptIsError (attemptOf buildUrl fetch validate ((pySplitWs searchTerm).take k)) = true)
    (hfirst : attemptOf buildUrl fetch validate (pySplitWs searchTerm) = .error e0) :
    (try_harder buildUrl fetch validate defaultErr searchTerm minLen).1 = .raise e0 ∧
    (try_harder buildUrl fetch validate defaultErr searchTerm minLen).2.length
      = (pySplitWs searchTerm).length - minLen + 1 := by
  obtain ⟨e1, he1, h1, h2⟩ := try_harder_aux_all_fail buildUrl fetch validate defaultErr
    minLen hmin ((pySplitWs searchTerm).length + 1) searchTerm none 1 hlen (by omega) hfail
  have he : e1 = e0 := by
    rw [hfirst] at he1
    cases he1
    rfl
  subst he
  exact ⟨by simpa using h1, h2⟩

/-! ## C5: `split_basename` blacklist ordering -/

theorem mem_insertByLenDesc (x y : List PyStr) :
    ∀ l, y ∈ insertByLenDesc x l ↔ y = x ∨ y ∈ l := by
  intro l
  induction l with
  | nil => simp [insertByLenDesc]
  | cons z rest ih =>
    by_cases h : x.length ≤ z.length
    · simp only [insertByLenDesc, h, if_true, List.mem_cons, ih]
      tauto
    · simp only [insertByLenDesc, h, if_false, List.mem_cons]

theorem mem_stableSort_foldl (x : List PyStr) :
    ∀ (l acc : List (List PyStr)),
      x ∈ l.foldl (fun a b => insertByLenDesc b a) acc ↔ x ∈ acc ∨ x ∈ l := by
  intro l
  induction l with
  | nil => intro acc; simp
  | cons z rest ih =>
    intro acc
    rw [List.foldl_cons, ih, mem_insertByLenDesc]
    simp only [List.mem_cons]
    tauto

theorem mem_stableSortByLenDesc (x : List PyStr) (l : List (List PyStr)) :
    x ∈ stableSortByLenDesc l ↔ x ∈ l := by
  unfold stableSortByLenDesc
  rw [mem_stableSort_foldl]
  simp

theorem mem_dedupSplitsAux (x : List PyStr) :
    ∀ (l seen : List (List PyStr)), x ∈ dedupSplitsAux l seen → x ∈ l := by
  intro l
  induction l with
  | nil => intro seen h; simp [dedupSplitsAux] at h
  | cons z rest ih =>
    intro seen h
    by_cases hz : z ∈ seen
    · simp only [dedupSplitsAux, hz, if_true] at h
      exact List.mem_cons_of_mem z (ih seen h)
    · simp only [dedupSplitsAux, hz, if_false, List.mem_cons] at h
      rcases h with rfl | h
      · simp
      · exact List.mem_cons_of_mem z (ih (z :: seen) h)

/-- C5 counterexample: for "a.-.b.mkv" with minWords 3 and the default
blacklist, the dot split has 3 non-empty tokens and passes the length test,
and only THEN is the blacklisted "-" removed — so the single returned
sequence has 2 tokens, fewer than minWords; and no error is raised although
no delimiter yields 3 surviving (post-blacklist) tokens. -/
theorem c5_counterexample :
    split_basename ("a.-.b.mkv".data) ['.', ' '] 3 ["-".data]
      = .ok [["a".data, "b".data]] ∧
    (["a".data, "b".data] : List PyStr).length < 3 ∧
    ∀ c ∈ (['.', ' '] : List Char),
      (((splitOnChar c (filenameOf ("a.-.b.mkv".data))).filter (fun w => w ≠ [])).filter
        (fun p => p ∉ (["-".data] : List PyStr))).length < 3 := by
  refine ⟨rfl, by decide, by decide⟩

/-- C5 (amended): `split_basename` first drops empty tokens, then discards
any split with fewer than minWords non-empty tokens, and only then removes
blacklisted single-character tokens from the kept splits.  Consequently
every returned sequence is the blacklist-filtered form of some delimiter's
split with at least minWords non-empty (pre-blacklist) tokens — it may
itself be shorter than minWords — and ParsingError is raised exactly when
no delimiter produces at least minWords non-empty tokens. -/
theorem c5_split_basename_amended (src_path : PyStr) (chars : List Char) (minLen : Nat)
    (blacklist : List PyStr) :
    (split_basename src_path chars minLen blacklist = .error .parsingError ↔
      ∀ c ∈ chars,
        ((splitOnChar c (filenameOf src_path)).filter (fun w => w ≠ [])).length < minLen) ∧
    (∀ rs, split_basename src_path chars minLen blacklist = .ok rs →
      ∀ r ∈ rs, ∃ c ∈ chars,
        minLen ≤ ((splitOnChar c (filenameOf src_path)).filter (fun w => w ≠ [])).length ∧
        r = ((splitOnChar c (filenameOf src_path)).filter (fun w => w ≠ [])).filter
          (fun p => p ∉ blacklist)) := by
  classical
  set F := filenameOf src_path with hF
  set tokens := fun c : Char => (splitOnChar c F).filter (fun w => w ≠ []) with htok
  set sorted := stableSortByLenDesc (chars.map tokens) with hsorted
  set g := fun split : List PyStr =>
    if split.length < minLen then (none : Option (List PyStr))
    else some (split.filter (fun part => part ∉ blacklist)) with hg
  have hmem : ∀ split, split ∈ sorted ↔ ∃ c ∈ chars, split = tokens c := by
    intro split
    rw [hsorted, mem_stableSortByLenDesc]
    simp only [List.mem_map]
    constructor
    · rintro ⟨c, hc, rfl⟩; exact ⟨c, hc, rfl⟩
    · rintro ⟨c, hc, rfl⟩; exact ⟨c, hc, rfl⟩
  have hsb : split_basename src_path chars minLen blacklist
      = if sorted.filterMap g = [] then .error .parsingError
        else .ok (dedupSplits (sorted.filterMap g)) := rfl
  have hiff : sorted.filterMap g = [] ↔ ∀ c ∈ chars, (tokens c).length < minLen := by
    rw [List.filterMap_eq_nil_iff]
    constructor
    · intro h c hc
      have hr := h (tokens c) ((hmem (tokens c)).mpr ⟨c, hc, rfl⟩)
      by_contra hlt
      simp only [hg, if_neg hlt] at hr
      exact Option.noConfusion hr
    · intro h split hsplit
      obtain ⟨c, hc, rfl⟩ := (hmem split).mp hsplit
      simp only [hg, if_pos (h c hc)]
  constructor
  · rw [hsb]
    by_cases hnil : sorted.filterMap g = []
    · rw [if_pos hnil]
      exact ⟨fun _ => hiff.mp hnil, fun _ => rfl⟩
    · rw [if_neg hnil]
      constructor
      · intro h; exact absurd h (by simp)
      · intro h; exact absurd (hiff.mpr h) hnil
  · intro rs hok r hr
    rw [hsb] at hok
    by_cases hnil : sorted.filterMap g = []
    · rw [if_pos hnil] at hok
      exact absurd hok (by simp)
    · rw [if_neg hnil] at hok
      have hrs : rs = dedupSplits (sorted.filterMap g) := by
        cases hok
        rfl
      subst hrs
      have hr' : r ∈ sorted.filterMap g := mem_dedupSplitsAux r _ [] hr
      obtain ⟨split, hsplit, hgs⟩ := List.mem_filterMap.mp hr'
      obtain ⟨c, hc, rfl⟩ := (hmem split).mp hsplit
      by_cases hlt : (tokens c).length < minLen
      · simp only [hg, if_pos hlt] at hgs
        exact Option.noConfusion hgs
      · simp only [hg, if_neg hlt, Option.some_inj] at hgs
        subst hgs
        exact ⟨c, hc, Nat.not_lt.mp hlt, rfl⟩

/-- C5 witness: "ab.mkv" yields no split of 3 non-empty tokens, so the
amended error condition fires; and the counterexample input's returned
sequence is exactly the blacklist-filtered dot split, which had 3 non-empty
tokens before filtering. -/
theorem c5_witness :
    split_basename ("ab.mkv".data) ['.', ' '] 3 ["-".data] = .error .parsingError ∧
    ∃ c ∈ (['.', ' '] : List Char),
      3 ≤ ((splitOnChar c (filenameOf ("a.-.b.mkv".data))).filter (fun w => w ≠ [])).length ∧
      (["a".data, "b".data] : List PyStr)
        = ((splitOnChar c (filenameOf ("a.-.b.mkv".data))).filter (fun w => w ≠ [])).filter
          (fun p => p ∉ (["-".data] : List PyStr)) := by
  constructor
  · exact (c5_split_basename_amended ("ab.mkv".data) ['.', ' '] 3 ["-".data]).1.mpr (by decide)
  · exact (c5_split_basename_amended ("a.-.b.mkv".data) ['.', ' '] 3 ["-".data]).2
      [["a".data, "b".data]] rfl ["a".data, "b".data] (by simp)

/-! ## C6: the best-effort fallback of `_find_title_and_year` -/

/-- C6 counterexample: both candidates of `c6src` are considered (dot split
A with 2 recognized tags, space split B with none), every year pattern
fails, and the function returns candidate B with NO tags: the A candidate
with strictly more recognized tags was displaced by the longer cleaned
token sequence of B. -/
theorem c6_counterexample :
    split_basename c6src ['.', ' '] 3 [['-']] = .ok [c6splitA, c6splitB] ∧
    find_title_and_year literalKeyMatch c6map c6src ['.', ' '] 3
      = .ok { split := c6splitB, year := none, metainfo := [] } ∧
    (computeMetainfo literalKeyMatch c6map c6splitA).1.length = 2 ∧
    (computeMetainfo literalKeyMatch c6map c6splitB).1.length = 0 := by
  refine ⟨rfl, rfl, rfl, rfl⟩

theorem ftyLoop_no_match_pass (keyMatch : PyStr → PyStr → Bool)
    (mapping : List (PyStr × PyStr)) (pat : YearPat) :
    ∀ (cands : List (List PyStr)) (rest : List (YearPat × List PyStr))
      (cur : TitleYearResult),
      (∀ s ∈ cands,
        yearSearch pat (joinSpace (computeMetainfo keyMatch mapping s).2) = none) →
      ftyLoop keyMatch mapping (cands.map (fun s => (pat, s)) ++ rest) cur
        = ftyLoop keyMatch mapping rest (specBestEffortPass keyMatch mapping cands cur) := by
  intro cands
  induction cands with
  | nil => intro rest cur h; simp [specBestEffortPass]
  | cons s cands' ih =>
    intro rest cur h
    have hs := h s (by simp)
    simp only [List.map_cons, List.cons_append, ftyLoop, hs]
    unfold specBestEffortPass
    rw [List.foldl_cons]
    split_ifs with h1 h2
    · simpa [h1] using ih rest _ (fun x hx => h x (by simp [hx]))
    · simpa [h1, h2] using ih rest _ (fun x hx => h x (by simp [hx]))
    · simpa [h1, h2] using ih rest _ (fun x hx => h x (by simp [hx]))

theorem specBestEffortPass_year_none (keyMatch : PyStr → PyStr → Bool)
    (mapping : List (PyStr × PyStr)) :
    ∀ (cands : List (List PyStr)) (cur : TitleYearResult), cur.year = none →
      (specBestEffortPass keyMatch mapping cands cur).year = none := by
  intro cands
  induction cands with
  | nil => intro cur h; exact h
  | cons s rest ih =>
    intro cur h
    unfold specBestEffortPass at ih ⊢
    rw [List.foldl_cons]
    apply ih
    by_cases h1 : cur.metainfo.length < (computeMetainfo keyMatch mapping s).1.length
    · simp [h1]
    · by_cases h2 : cur.split.length < (computeMetainfo keyMatch mapping s).2.length
      · simp [h1, h2]
      · simp [h1, h2, h]

/-- C6 (amended): when no year pattern matches any candidate's cleaned
string, `_find_title_and_year` returns, with year = none, the candidate
selected by repeatedly (once per year pattern) scanning the candidates
longest-raw-split-first and replacing the current best whenever a candidate
has strictly more recognized tags OR — independently of the tag counts — a
strictly longer tag-stripped token sequence.  A candidate with strictly
more recognized tags can therefore be displaced by a longer candidate with
fewer tags (see the counterexample). -/
theorem c6_best_effort_amended (keyMatch : PyStr → PyStr → Bool)
    (mapping : List (PyStr × PyStr)) (src_path : PyStr) (chars : List Char)
    (minLen : Nat) (cands : List (List PyStr))
    (hc : movieCandidates src_path chars minLen = .ok cands)
    (hnone : ∀ pat ∈ YEAR_PATTERNS, ∀ s ∈ cands,
      yearSearch pat (joinSpace (computeMetainfo keyMatch mapping s).2) = none) :
    find_title_and_year keyMatch mapping src_path chars minLen
      = .ok (specBestEffort keyMatch mapping cands) ∧
    (specBestEffort keyMatch mapping cands).year = none := by
  constructor
  · have hunf : find_title_and_year keyMatch mapping src_path chars minLen
        = .ok (ftyLoop keyMatch mapping
            (YEAR_PATTERNS.flatMap (fun pat => cands.map (fun s => (pat, s))))
            { split := [], year := none, metainfo := [] }) := by
      unfold find_title_and_year
      rw [hc]
    have hY : YEAR_PATTERNS.flatMap (fun pat => cands.map (fun s => (pat, s)))
        = cands.map (fun s => (YearPat.paren, s))
          ++ (cands.map (fun s => (YearPat.spaced, s))
          ++ (cands.map (fun s => (YearPat.trailing, s))
          ++ (cands.map (fun s => (YearPat.bounded, s)) ++ []))) := rfl
    rw [hunf, hY]
    rw [ftyLoop_no_match_pass keyMatch mapping YearPat.paren cands _ _
      (hnone YearPat.paren (by simp [YEAR_PATTERNS]))]
    rw [ftyLoop_no_match_pass keyMatch mapping YearPat.spaced cands _ _
      (hnone YearPat.spaced (by simp [YEAR_PATTERNS]))]
    rw [ftyLoop_no_match_pass keyMatch mapping YearPat.trailing cands _ _
      (hnone YearPat.trailing (by simp [YEAR_PATTERNS]))]
    rw [ftyLoop_no_match_pass keyMatch mapping YearPat.bounded cands _ _
      (hnone YearPat.bounded (by simp [YEAR_PATTERNS]))]
    rfl
  · apply specBestEffortPass_year_none
    apply specBestEffortPass_year_none
    apply specBestEffortPass_year_none
    apply specBestEffortPass_year_none
    rfl

/-- C6 witness: the amended selection rule applied to the concrete input
with its two candidates. -/
theorem c6_witness :
    find_title_and_year literalKeyMatch c6map c6src ['.', ' '] 3
      = .ok (specBestEffort literalKeyMatch c6map [c6splitA, c6splitB]) ∧
    (specBestEffort literalKeyMatch c6map [c6splitA, c6splitB]).year = none :=
  c6_best_effort_amended literalKeyMatch c6map c6src ['.', ' '] 3
    [c6splitA, c6splitB] rfl (by decide)

/-! ## C3: provider iteration order, caching, aggregate error -/

theorem cache_insert_kwargs_nil_ok (c : Cache) (args : List CacheArg) (r : MediaMetadata) :
    ∃ c', Cache.insert c args [] r = .ok c' := by
  by_cases hd : c.is_disabled = true
  · exact ⟨c, by simp [Cache.insert, hd]⟩
  · simp only [Cache.insert, hd, Bool.false_eq_true, if_false]
    cases hp : posKeyParts args with
    | none => exact ⟨c, by simp [construct_unique_key, hp, kwargsKeyParts]⟩
    | some pos =>
      by_cases hk : String.intercalate "," pos = ""
      · exact ⟨c, by simp [construct_unique_key, hp, kwargsKeyParts, hk]⟩
      · exact ⟨{ c with items := updateItems c.items (String.intercalate "," pos) r },
          by simp [construct_unique_key, hp, kwargsKeyParts, hk]⟩

theorem find_query_loop_all_fail {E : Type}
    (query : MetadataProviderApi → Option (Except E MediaMetadata))
    (args : List CacheArg) (l : List MetadataProviderApi) :
    ∀ (cache : Cache) (excs : List E) (invoked : List String),
      (∀ api ∈ l, ∃ e, query api = some (.error e)) →
      find_query_loop query args l cache excs invoked
        = (.error (.mediaSorterError (excs ++ l.filterMap (queryErrOf query))), cache,
           invoked ++ l.filterMap (invokedNameOf query)) := by
  induction l with
  | nil => intro cache excs invoked h; simp [find_query_loop]
  | cons api rest ih =>
    intro cache excs invoked h
    obtain ⟨e, he⟩ := h api (by simp)
    simp only [find_query_loop, he]
    rw [ih cache (excs ++ [e]) (invoked ++ [api.name]) (fun a ha => h a (by simp [ha]))]
    simp [queryErrOf, invokedNameOf, he]

theorem find_query_loop_skips_failures {E : Type}
    (query : MetadataProviderApi → Option (Except E MediaMetadata))
    (args : List CacheArg) (pre : List MetadataProviderApi) :
    ∀ (rest : List MetadataProviderApi) (cache : Cache) (excs : List E)
      (invoked : List String),
      (∀ a ∈ pre, query a = none ∨ ∃ e, query a = some (.error e)) →
      find_query_loop query args (pre ++ rest) cache excs invoked
        = find_query_loop query args rest cache
            (excs ++ pre.filterMap (queryErrOf query))
            (invoked ++ pre.filterMap (invokedNameOf query)) := by
  induction pre with
  | nil => intro rest cache excs invoked h; simp
  | cons api pre' ih =>
    intro rest cache excs invoked h
    rcases h api (by simp) with hnone | ⟨e, he⟩
    · simp only [List.cons_append, find_query_loop, hnone, List.append_eq]
      rw [ih rest cache excs invoked (fun a ha => h a (by simp [ha]))]
      simp [queryErrOf, invokedNameOf, hnone]
    · simp only [List.cons_append, find_query_loop, he, List.append_eq]
      rw [ih rest cache (excs ++ [e]) (invoked ++ [api.name])
        (fun a ha => h a (by simp [ha]))]
      simp [queryErrOf, invokedNameOf, he]

theorem find_query_loop_trace_extends {E : Type}
    (query : MetadataProviderApi → Option (Except E MediaMetadata))
    (args : List CacheArg) (l : List MetadataProviderApi) :
    ∀ (cache : Cache) (excs : List E) (invoked : List String),
      ∃ t, (find_query_loop query args l cache excs invoked).2.2 = invoked ++ t := by
  induction l with
  | nil => intro cache excs invoked; exact ⟨[], by simp [find_query_loop]⟩
  | cons api rest ih =>
    intro cache excs invoked
    cases hq : query api with
    | none => simpa [find_query_loop, hq] using ih cache excs invoked
    | some res =>
      cases res with
      | ok r =>
        cases hins : Cache.insert cache args [] r with
        | error u => exact ⟨[api.name], by simp [find_query_loop, hq, hins]⟩
        | ok c' => exact ⟨[api.name], by simp [find_query_loop, hq, hins]⟩
      | error e =>
        obtain ⟨t, ht⟩ := ih cache (excs ++ [e]) (invoked ++ [api.name])
        exact ⟨api.name :: t, by simp [find_query_loop, hq, ht]⟩

theorem filterMap_invokedName_all_registered {E : Type}
    (query : MetadataProviderApi → Option (Except E MediaMetadata)) :
    ∀ l : List MetadataProviderApi, (∀ api ∈ l, ∃ e, query api = some (.error e)) →
      l.filterMap (invokedNameOf query) = l.map (fun a => a.name) := by
  intro l
  induction l with
  | nil => intro h; rfl
  | cons api rest ih =>
    intro h
    obtain ⟨e, he⟩ := h api (by simp)
    simp only [List.filterMap_cons, List.map_cons, invokedNameOf, he]
    rw [ih (fun a ha => h a (by simp [ha]))]

/-- C3: on a cache miss the resolver invokes exactly the providers that are
registered for the requested media kind, in configuration order: (1) if
every configured provider raises `MetadataQueryError`, it raises one
aggregate error carrying all per-provider causes in order; (2) the first
provider to return a validated result wins, is written through to the
cache, and ends the iteration; (3) in particular the second configured
provider is always invoked after the first one fails; and (4) `find_movie`
behaves identically to `find_tvshow`. -/
theorem c3_resolver_order_cache_aggregate {E : Type}
    (query : MetadataProviderApi → Option (Except E MediaMetadata))
    (cfg : List MetadataProviderApi) (cache : Cache) (args : List CacheArg)
    (hmiss : Cache.get cache args [] = .ok none) :
    ((∀ api ∈ cfg, ∃ e, query api = some (.error e)) →
      find_tvshow query cfg cache args
        = (.error (.mediaSorterError (cfg.filterMap (queryErrOf query))), cache,
           cfg.map (fun a => a.name))) ∧
    (∀ (pre : List MetadataProviderApi) (api : MetadataProviderApi)
        (post : List MetadataProviderApi) (r : MediaMetadata),
      cfg = pre ++ api :: post →
      (∀ a ∈ pre, query a = none ∨ ∃ e, query a = some (.error e)) →
      query api = some (.ok r) →
      ∃ c', Cache.insert cache args [] r = .ok c' ∧
        find_tvshow query cfg cache args
          = (.ok r, c', pre.filterMap (invokedNameOf query) ++ [api.name])) ∧
    (∀ (a b : MetadataProviderApi) (rest : List MetadataProviderApi),
      cfg = a :: b :: rest →
      (∃ e, query a = some (.error e)) → query b ≠ none →
      b.name ∈ (find_tvshow query cfg cache args).2.2) ∧
    find_movie query cfg cache args = find_tvshow query cfg cache args := by
  refine ⟨?_, ?_, ?_, rfl⟩
  · intro hall
    simp only [find_tvshow, hmiss]
    rw [find_query_loop_all_fail query args cfg cache [] [] hall]
    rw [filterMap_invokedName_all_registered query cfg hall]
    simp
  · intro pre api post r hcfg hpre hok
    obtain ⟨c', hc'⟩ := cache_insert_kwargs_nil_ok cache args r
    refine ⟨c', hc', ?_⟩
    simp only [find_tvshow, hmiss, hcfg]
    rw [find_query_loop_skips_failures query args pre (api :: post) cache [] [] hpre]
    simp only [find_query_loop, hok, hc']
    simp
  · intro a b rest hcfg hae hb
    obtain ⟨e, he⟩ := hae
    simp only [find_tvshow, hmiss, hcfg]
    simp only [find_query_loop, he, List.nil_append]
    cases hqb : query b with
    | none => exact absurd hqb hb
    | some res =>
      cases res with
      | ok r =>
        obtain ⟨c', hc'⟩ := cache_insert_kwargs_nil_ok cache args r
        simp [find_query_loop, hqb, hc']
      | error e' =>
        simp only [find_query_loop, hqb]
        obtain ⟨t, ht⟩ := find_query_loop_trace_extends query args rest cache
          ([e] ++ [e']) ([a.name] ++ [b.name])
        rw [ht]
        simp

/-- C3 witness: with both configured providers registered and failing, the
resolver invokes tvmaze then tmdb (so the second provider IS invoked after
the first fails) and raises a single aggregate error carrying both causes in
configuration order, leaving the cache untouched. -/
theorem c3_witness :
    find_tvshow allFailQuery [tvmazeApi, tmdbApi] cacheCex [CacheArg.pstr "mash"]
      = (.error (.mediaSorterError ["tvmaze failed", "tmdb failed"]), cacheCex,
         ["tvmaze", "tmdb"]) := by
  have h := (c3_resolver_order_cache_aggregate allFailQuery [tvmazeApi, tmdbApi]
    cacheCex [CacheArg.pstr "mash"] rfl).1
  rw [h (by intro api ha; exact ⟨api.name ++ " failed", rfl⟩)]
  rfl

/-- C4 witness: the search term "aa bb cc" with a validator that fails every
attempt, tagging each error with the length of the attempted title: three
attempts are made and the FIRST error (8, for "aa bb cc") is raised, not the
last one (2, for "aa"). -/
theorem c4_witness :
    (try_harder (E := Nat) (J := Unit) (A := Unit) (fun t => String.mk t)
        (fun _ => .ok ()) (fun _ title => .error title.length) 0
        ("aa bb cc".data) 1).1 = .raise 8 ∧
    (try_harder (E := Nat) (J := Unit) (A := Unit) (fun t => String.mk t)
        (fun _ => .ok ()) (fun _ title => .error title.length) 0
        ("aa bb cc".data) 1).2.length = 3 :=
  c4_try_harder_first_error (fun t => String.mk t) (fun _ => .ok ())
    (fun _ title => .error title.length) 0 ("aa bb cc".data) 1 8
    (by decide) (by decide)
    (by
      intro k h1 h3
      rw [show (pySplitWs ("aa bb cc".data)).length = 3 from rfl] at h3
      interval_cases k <;> rfl) rfl

/-! ## C2: the TV disqualifier in the movie path -/

/-- C2: whenever the non-forced TV season/episode parse succeeds on a path,
`suggest_movie` rejects the file with the "this appears to be a TV show"
error before any metadata-provider query (its resolver-query trace is
empty, and `parse_movie_name` is never consulted); and through `suggest`
with media kind `movie` explicitly requested, the resulting operation
carries that rejection (wrapped by the movie branch's `except` clause) with
no TV or movie resolver query at all. -/
theorem c2_movie_disqualifier {E : Type}
    (parseSEtv parseSEmv : PyStr → Bool → Except ParsingError (PyStr × Nat × Nat))
    (findTv : PyStr → Nat → Nat → Except E TvShowMetadata)
    (parseMovie : PyStr → Except ParsingError (PyStr × Option Nat × List PyStr))
    (findMovieQ : PyStr → Option Nat → Except E MovieMetadata)
    (suffix_the allow_metadata_tagging subdir : Bool)
    (formatTv : TvShowMetadata → PyStr × PyStr)
    (formatMovie : MovieMetadata → PyStr) (formatMovieDir : MovieMetadata → PyStr)
    (valid_extensions : List PyStr) (src_path : PyStr) (t : PyStr × Nat × Nat)
    (hparse : parseSEmv src_path false = .ok t)
    (hext1 : (splitextOf src_path).2 ≠ [])
    (hext2 : (splitextOf src_path).2 ∈ valid_extensions) :
    suggest_movie parseSEmv parseMovie findMovieQ allow_metadata_tagging subdir
        formatMovie formatMovieDir src_path = (.appearsTvShow, [false], []) ∧
    suggest parseSEtv findTv parseSEmv parseMovie findMovieQ suffix_the
        allow_metadata_tagging subdir formatTv formatMovie formatMovieDir
        valid_extensions src_path .movie
      = (some { input_path := src_path, output_path := none, type := .movie,
                exception := some (.cantParseMovie .appearsTvShow) },
         ⟨[false], [], []⟩) := by
  have h1 : suggest_movie parseSEmv parseMovie findMovieQ allow_metadata_tagging subdir
      formatMovie formatMovieDir src_path = (.appearsTvShow, [false], []) := by
    simp [suggest_movie, hparse]
  refine ⟨h1, ?_⟩
  simp [suggest, hext1, hext2, suggestMovieBranch, h1]

/-- C2 witness: a parser that recognizes the file as a TV show in
non-forced mode, a valid extension, and media kind movie: the rejection is
recorded and no resolver query is made. -/
theorem c2_witness :
    suggest_movie alwaysTvParse someMovieParse noMovieResolver false true
        movieFormatOracle movieFormatOracle ("show.s01e02.mkv".data)
      = (.appearsTvShow, [false], []) ∧
    suggest alwaysTvParse noTvResolver alwaysTvParse someMovieParse noMovieResolver
        false false true tvFormatOracle movieFormatOracle movieFormatOracle
        [".mkv".data] ("show.s01e02.mkv".data) .movie
      = (some { input_path := ("show.s01e02.mkv".data), output_path := none,
                type := .movie,
                exception := some (.cantParseMovie .appearsTvShow) },
         ⟨[false], [], []⟩) :=
  c2_movie_disqualifier alwaysTvParse alwaysTvParse noTvResolver someMovieParse
    noMovieResolver false false true tvFormatOracle movieFormatOracle movieFormatOracle
    [".mkv".data] ("show.s01e02.mkv".data) ("show".data, 1, 2) rfl
    (by decide) (by decide)

/-! ## C9: the forced re-parse on the TV path -/

/-- C9: in both tv and auto modes, whenever the non-forced TV parse raises
`ParsingError`, the engine ALWAYS re-runs `parse_season_and_episode` with
force=True (which switches the parser to the looser
`SxxEyy_PATTERNS_EXTENDED` table) before the file is declared unparseable
as TV or falls through to the movie path: `suggest_tv_show`'s parse-call
trace is exactly `[false, true]`, the first two parse calls of `suggest`
are `[false, true]` regardless of what follows, and when the forced parse
also fails in tv mode the operation is marked unparseable with exactly
those two parse calls made. -/
theorem c9_forced_reparse {E : Type}
    (parseSE parseSEmv : PyStr → Bool → Except ParsingError (PyStr × Nat × Nat))
    (findTv : PyStr → Nat → Nat → Except E TvShowMetadata)
    (parseMovie : PyStr → Except ParsingError (PyStr × Option Nat × List PyStr))
    (findMovieQ : PyStr → Option Nat → Except E MovieMetadata)
    (suffix_the allow_metadata_tagging subdir : Bool)
    (formatTv : TvShowMetadata → PyStr × PyStr)
    (formatMovie : MovieMetadata → PyStr) (formatMovieDir : MovieMetadata → PyStr)
    (valid_extensions : List PyStr) (src_path : PyStr) (media_type : MediaTypeKind)
    (hmt : media_type = .tv ∨ media_type = .auto)
    (hext1 : (splitextOf src_path).2 ≠ [])
    (hext2 : (splitextOf src_path).2 ∈ valid_extensions)
    (hparse : ∃ pe, parseSE src_path false = .error pe) :
    (suggest_tv_show parseSE findTv suffix_the formatTv src_path).2.1 = [false, true] ∧
    ((suggest parseSE findTv parseSEmv parseMovie findMovieQ suffix_the
        allow_metadata_tagging subdir formatTv formatMovie formatMovieDir
        valid_extensions src_path media_type).2).parseCalls.take 2 = [false, true] ∧
    ((∃ pe', parseSE src_path true = .error pe') → media_type = .tv →
      ((suggest parseSE findTv parseSEmv parseMovie findMovieQ suffix_the
          allow_metadata_tagging subdir formatTv formatMovie formatMovieDir
          valid_extensions src_path media_type).2).parseCalls = [false, true] ∧
      ∃ op, (suggest parseSE findTv parseSEmv parseMovie findMovieQ suffix_the
          allow_metadata_tagging subdir formatTv formatMovie formatMovieDir
          valid_extensions src_path media_type).1 = some op ∧
        op.exception = some .cantParseTvShow) := by
  obtain ⟨pe, hpe⟩ := hparse
  have hcalls : (suggest_tv_show parseSE findTv suffix_the formatTv src_path).2.1
      = [false, true] := by
    cases hq : parseSE src_path true with
    | ok t =>
      obtain ⟨name, series, episode⟩ := t
      cases hf : findTv name series episode with
      | ok r => simp [suggest_tv_show, hpe, hq, hf]
      | error e => simp [suggest_tv_show, hpe, hq, hf]
    | error e => simp [suggest_tv_show, hpe, hq]
  refine ⟨hcalls, ?_, ?_⟩
  · rcases hst : suggest_tv_show parseSE findTv suffix_the formatTv src_path
      with ⟨out, calls, tvq⟩
    have hc : calls = [false, true] := by rw [hst] at hcalls; exact hcalls
    subst hc
    have hmt' : (media_type = MediaTypeKind.auto ∨ media_type = MediaTypeKind.tv) := by
      tauto
    rcases hsm : suggest_movie parseSEmv parseMovie findMovieQ allow_metadata_tagging
        subdir formatMovie formatMovieDir src_path with ⟨mout, mcalls, mq⟩
    cases out with
    | ok dir file =>
      by_cases hfile : file = [] <;>
        cases mout <;>
          simp [suggest, hext1, hext2, hmt', hst, hfile, suggestMovieBranch, hsm]
    | parsing =>
      rcases hmt with rfl | rfl
      · simp [suggest, hext1, hext2, hst]
      · cases mout <;>
          simp [suggest, hext1, hext2, hst, suggestMovieBranch, hsm]
    | findError e =>
      simp [suggest, hext1, hext2, hmt', hst]
  · intro hforced hmtv
    subst hmtv
    obtain ⟨pe', hpe'⟩ := hforced
    have hst : suggest_tv_show parseSE findTv suffix_the formatTv src_path
        = (.parsing, [false, true], []) := by
      simp [suggest_tv_show, hpe, hpe']
    constructor
    · simp [suggest, hext1, hext2, hst]
    · have hop : (suggest parseSE findTv parseSEmv parseMovie findMovieQ suffix_the
          allow_metadata_tagging subdir formatTv formatMovie formatMovieDir
          valid_extensions src_path MediaTypeKind.tv).1
          = some { input_path := src_path, output_path := none,
                   type := MediaTypeKind.tv,
                   exception := some OpException.cantParseTvShow } := by
        simp [suggest, hext1, hext2, hst]
      exact ⟨_, hop, rfl⟩

/-- C9 witness: a parser that fails without force and succeeds with it, in
tv mode: the trace shows the non-forced attempt followed by the forced
re-run. -/
theorem c9_witness :
    (suggest_tv_show forcedOnlyTvParse noTvResolver false tvFormatOracle
        ("show 0102.mkv".data)).2.1 = [false, true] ∧
    ((suggest forcedOnlyTvParse noTvResolver forcedOnlyTvParse someMovieParse
        noMovieResolver false false true tvFormatOracle movieFormatOracle
        movieFormatOracle [".mkv".data]
        ("show 0102.mkv".data) .tv).2).parseCalls.take 2 = [false, true] :=
  ⟨(c9_forced_reparse forcedOnlyTvParse forcedOnlyTvParse noTvResolver someMovieParse
      noMovieResolver false false true tvFormatOracle movieFormatOracle
      movieFormatOracle [".mkv".data] ("show 0102.mkv".data) .tv (Or.inl rfl)
      (by decide) (by decide) ⟨.parsingError, rfl⟩).1,
   (c9_forced_reparse forcedOnlyTvParse forcedOnlyTvParse noTvResolver someMovieParse
      noMovieResolver false false true tvFormatOracle movieFormatOracle
      movieFormatOracle [".mkv".data] ("show 0102.mkv".data) .tv (Or.inl rfl)
      (by decide) (by decide) ⟨.parsingError, rfl⟩).2.1⟩

end Mediasorter
